import Mathlib

/-!
Verification of the krew-podvolumebackup-list pipeline (src/main.go).

The development shallowly embeds the extraction → filter → sort → render
pipeline of `main.go`: dynamic Go values (`interface{}` as decoded by the
unstructured Kubernetes client) become the inductive `GoVal`, the helper
functions `humanBytes`, `getInt64`, `splitCSV`, `anyContainsFold`,
`anyEqual` are translated function by function, the row-building loop of
`main` becomes `buildRows`, and `sort.Slice`'s pdqsort is modelled as the
deterministic algorithm of the Go runtime.  Machine integers are `Int`
with explicit range side conditions; Go `float64` values are carried as
exact rationals (every float64 is a rational), with float-specific
rounding noted where it could matter.
-/

/-- Dynamic Go value, as produced by decoding Kubernetes unstructured
JSON content.  The constructors mirror exactly the Go dynamic types that
`main.go` dispatches on (`string`, `int64`, `int32`, `int`, `float64`,
`json.Number`, `bool`, `map[string]interface{}`, `[]interface{}`, `nil`).
Integer payloads are mathematical integers; a `float64` payload is the
exact rational value of the float. -/
inductive GoVal where
  | vString (s : String)
  | vInt64 (n : Int)
  | vInt32 (n : Int)
  | vInt (n : Int)
  | vFloat64 (q : ℚ)
  | vJSONNumber (s : String)
  | vBool (b : Bool)
  | vMap (entries : List (String × GoVal))
  | vArray (elems : List GoVal)
  | vNull

/-- Go map lookup on an association list (JSON object keys are unique). -/
def mapGet : List (String × GoVal) → String → Option GoVal
  | [], _ => none
  | (k, v) :: rest, key => if k = key then some v else mapGet rest key

/-- Type assertion `v.(map[string]interface{})`. -/
def GoVal.asMap : GoVal → Option (List (String × GoVal))
  | .vMap m => some m
  | _ => none

/-- Type assertion `v.(string)`. -/
def GoVal.asString : GoVal → Option String
  | .vString s => some s
  | _ => none

/-- A raw source record: the top-level `map[string]interface{}` of one
unstructured PodVolumeBackup object (`item.Object`). -/
def Record := List (String × GoVal)

/-- `unstructured.NestedMap(obj, field)`: the field looked up and
type-asserted to a map; `none` when absent or of another type. -/
def nestedMap (obj : Record) (field : String) : Option (List (String × GoVal)) :=
  (mapGet obj field).bind GoVal.asMap

/-- `unstructured.NestedString(obj, f1, f2)` for a two-segment path. -/
def nestedString2 (obj : Record) (f1 f2 : String) : Option String :=
  (nestedMap obj f1).bind fun m => (mapGet m f2).bind GoVal.asString

/-- Conversion of map entries to `map[string]string`, failing when any
value is not a string (the behaviour of `NestedStringMap`). -/
def stringEntries : List (String × GoVal) → Option (List (String × String))
  | [] => some []
  | (k, .vString s) :: rest => (stringEntries rest).map (fun r => (k, s) :: r)
  | _ => none

/-- Lookup in a `map[string]string`; a missing key yields the zero value
`""`, as in Go. -/
def strMapGet : List (String × String) → String → String
  | [], _ => ""
  | (k, v) :: rest, key => if k = key then v else strMapGet rest key

/-- `item.GetLabels()`: `metadata.labels` as a string map, `none` (Go
`nil`) when absent or when any value is not a string. -/
def getLabels (obj : Record) : Option (List (String × String)) :=
  (nestedMap obj "metadata").bind fun m =>
    (mapGet m "labels").bind fun v =>
      match v with
      | .vMap entries => stringEntries entries
      | _ => none

/-- `item.GetName()`: `metadata.name` as a string, `""` when absent. -/
def getName (obj : Record) : String :=
  (nestedString2 obj "metadata" "name").getD ""

/-- Maximum value of a Go `int64`. -/
def int64Max : Int := 9223372036854775807

/-- Minimum value of a Go `int64`. -/
def int64Min : Int := -9223372036854775808

/-- Decimal value of a digit run; `none` if empty or any non-digit
(`strconv.ParseInt` body, base 10). -/
def decDigits : List Char → Option Nat
  | [] => none
  | [c] => if c.isDigit then some (c.toNat - '0'.toNat) else none
  | c :: rest =>
    if c.isDigit then
      (decDigits rest).map (fun r => (c.toNat - '0'.toNat) * 10 ^ rest.length + r)
    else none

/-- `strconv.ParseInt(s, 10, 64)`: optional sign, non-empty decimal
digits, result within `int64` range; `none` on any error. -/
def parseInt64 (s : String) : Option Int :=
  let core : List Char → Bool → Option Int := fun ds neg =>
    match decDigits ds with
    | none => none
    | some v =>
      if neg then
        if -(v : Int) < int64Min then none else some (-(v : Int))
      else
        if (v : Int) > int64Max then none else some (v : Int)
  match s.data with
  | [] => none
  | '+' :: rest => core rest false
  | '-' :: rest => core rest true
  | ds => core ds false

/-- Go conversion `int64(f)` of a `float64` carried as an exact
rational: truncation toward zero.  (For values outside the `int64`
range the Go conversion is implementation-defined; no claim exercises
that case.) -/
def ratTruncToInt (q : ℚ) : Int := q.num.tdiv (q.den : Int)

/-- `getInt64` of main.go: the type-dispatch numeric coercion.  Each
case of the Go type switch is one branch; `json.Number.Int64` and the
string case both run `strconv.ParseInt(·, 10, 64)`. -/
def getInt64 : GoVal → Option Int
  | .vInt64 n => some n
  | .vInt32 n => some n
  | .vInt n => some n
  | .vFloat64 q => some (ratTruncToInt q)
  | .vJSONNumber s => parseInt64 s
  | .vString s => parseInt64 s
  | _ => none

/-- `fmt.Sprintf("%.1f", float64(num)/float64(den))` computed on the
exact fraction `num / den` (non-negative): one digit after the decimal
point, rounding the exact value to the nearest tenth with ties to even
(the rounding of Go's fixed-precision float formatting; it agrees with
Go wherever the float quotient is exact, which covers every value any
claim exercises). -/
def formatF1Frac (num den : Nat) : String :=
  let t10 := 10 * num
  let q := t10 / den
  let r := t10 % den
  let t := if 2 * r < den then q
           else if 2 * r > den then q + 1
           else if q % 2 = 0 then q else q + 1
  let ip := t / 10
  let fp := t % 10
  s!"{ip}.{fp}"

/-- The division loop of `humanBytes`: starting from `n = b / 1024`,
`div = 1024`, `exp = 0`, divide by 1024 while `n >= 1024`, multiplying
`div` and incrementing `exp` each time.  The first argument is
structural-recursion fuel; callers pass fuel `≥ n`, and since each
iteration divides `n` by 1024 the fuel is never exhausted while
`n ≥ 1024` (at fuel 0 necessarily `n = 0 < 1024`, where the loop exits
anyway, so the fuel-0 branch coincides with the loop's exit). -/
def humanLoop : Nat → Nat → Nat → Nat → Nat × Nat
  | 0, _, divAcc, e => (divAcc, e)
  | fuel + 1, n, divAcc, e =>
    if n ≥ 1024 then humanLoop fuel (n / 1024) (divAcc * 1024) (e + 1) else (divAcc, e)

/-- The unit characters `"KMGTPE"` indexed by `humanBytes`. -/
def unitChars : List Char := ['K', 'M', 'G', 'T', 'P', 'E']

/-- `humanBytes` of main.go.  For `b < 1024` the byte count is printed
directly; otherwise the magnitude `float64(b)/float64(div)` is printed
with one decimal (`formatF1` on the exact quotient) and the unit
character `"KMGTPE"[exp]`.  The Go code indexes the unit string without
a bounds check; the model uses `getD` and the safety claim shows the
default is never taken for `int64` inputs. -/
def humanBytes (b : Int) : String :=
  if b < 1024 then s!"{b} B"
  else
    let p := humanLoop b.toNat (b.toNat / 1024) 1024 0
    let mag := formatF1Frac b.toNat p.1
    let u := unitChars.getD p.2 '?'
    s!"{mag} {u}iB"

/-- `strings.ToLower`, restricted to its ASCII action (every string any
claim exercises is ASCII; `Char.toLower` lowercases exactly the ASCII
letters A-Z). -/
def goToLower (s : String) : String := ⟨s.data.map Char.toLower⟩

/-- `strings.HasPrefix(s, p)`. -/
def goHasPfx (p s : String) : Bool := p.data.isPrefixOf s.data

/-- `strings.Contains(hay, needle)`: some position of `hay` starts an
occurrence of `needle` (byte search and character search agree on valid
UTF-8, which is self-synchronizing). -/
def strContains (hay needle : String) : Bool :=
  (List.range (hay.data.length + 1)).any fun i => needle.data.isPrefixOf (hay.data.drop i)

/-- Code points with Go's `unicode.IsSpace` property (Latin-1 rule plus
the White_Space code points trimmed by `strings.TrimSpace`). -/
def goSpaceCodes : List Nat :=
  [9, 10, 11, 12, 13, 32, 0x85, 0xA0, 0x1680,
   0x2000, 0x2001, 0x2002, 0x2003, 0x2004, 0x2005, 0x2006, 0x2007, 0x2008, 0x2009, 0x200A,
   0x2028, 0x2029, 0x202F, 0x205F, 0x3000]

/-- `unicode.IsSpace` on one character. -/
def goIsSpace (c : Char) : Bool := goSpaceCodes.contains c.toNat

/-- `strings.TrimSpace`: drop leading and trailing white space. -/
def goTrimSpace (s : String) : String :=
  ⟨((s.data.dropWhile goIsSpace).reverse.dropWhile goIsSpace).reverse⟩

/-- `strings.Split(s, ",")` on the character list: the (possibly
empty) runs between commas, in order. -/
def splitComma : List Char → List String
  | [] => [""]
  | ',' :: rest => "" :: splitComma rest
  | c :: rest =>
    match splitComma rest with
    | [] => [⟨[c]⟩]
    | p :: ps => ⟨c :: p.data⟩ :: ps

/-- `splitCSV` of main.go: `""` yields no tokens; otherwise split on
`","`, trim each part, and keep the non-empty parts in order. -/
def splitCSV (s : String) : List String :=
  if s = "" then []
  else ((splitComma s.data).map goTrimSpace).filter (fun p => p ≠ "")

/-- `anyContainsFold` of main.go: an empty needle list accepts
everything; otherwise some needle occurs in the haystack after both are
lowercased. -/
def anyContainsFold (hay : String) (needles : List String) : Bool :=
  if needles.isEmpty then true
  else needles.any fun n => strContains (goToLower hay) (goToLower n)

/-- `anyEqual` of main.go: an empty allow list accepts everything;
otherwise the value equals some allowed string. -/
def anyEqual (hay : String) (allowed : List String) : Bool :=
  if allowed.isEmpty then true
  else allowed.any fun a => hay == a

/-- Wall-clock fields of a parsed RFC 3339 timestamp (fractional
seconds and the zone offset are validated but not retained: `main.go`
formats only down to seconds and performs no zone conversion). -/
structure DateTime where
  year : Nat
  month : Nat
  day : Nat
  hour : Nat
  minute : Nat
  second : Nat
deriving Repr, DecidableEq

/-- Numeric value of a decimal digit character. -/
def digitVal (c : Char) : Nat := c.toNat - '0'.toNat

/-- Two decimal digits within an inclusive range (`parseUint` of Go's
`parseRFC3339`). -/
def parse2 (a b : Char) (lo hi : Nat) : Option Nat :=
  if a.isDigit && b.isDigit then
    let v := digitVal a * 10 + digitVal b
    if lo ≤ v && v ≤ hi then some v else none
  else none

/-- Four decimal digits (the year field, range 0-9999). -/
def parseYear4 (a b c d : Char) : Option Nat :=
  if a.isDigit && b.isDigit && c.isDigit && d.isDigit then
    some (((digitVal a * 10 + digitVal b) * 10 + digitVal c) * 10 + digitVal d)
  else none

/-- Gregorian leap-year rule (`isLeap` of Go's time package). -/
def isLeap (y : Nat) : Bool := (y % 4 == 0 && y % 100 != 0) || y % 400 == 0

/-- Days in a month (`daysIn` of Go's time package). -/
def daysIn (m y : Nat) : Nat :=
  if m = 2 then (if isLeap y then 29 else 28)
  else if m = 4 || m = 6 || m = 9 || m = 11 then 30
  else 31

/-- Consume an optional fractional-second part: a `'.'` followed by at
least one digit eats the dot and every following digit, anything else
is left in place (Go's `parseRFC3339`). -/
def afterFrac (cs : List Char) : List Char :=
  match cs with
  | '.' :: c :: rest => if c.isDigit then rest.dropWhile Char.isDigit else cs
  | _ => cs

/-- Validate the timezone suffix: a lone `Z` or `z`, or a six-character
`±hh:mm` offset with hours 0-23 and minutes 0-59. -/
def zoneOK (cs : List Char) : Bool :=
  match cs with
  | ['Z'] => true
  | ['z'] => true
  | [sgn, h1, h2, ':', m1, m2] =>
    (sgn == '+' || sgn == '-') && (parse2 h1 h2 0 23).isSome && (parse2 m1 m2 0 59).isSome
  | _ => false

/-- `time.Parse(time.RFC3339, s)` as accepted by Go's strict RFC 3339
fast path: `yyyy-mm-ddThh:mm:ss`, optional fractional seconds, then
`Z`/`z` or `±hh:mm`; month, day (against the month length), hour,
minute and second are range-checked.  The result is the wall-clock
fields as written, which is what `Format` prints back since the parsed
time keeps its own offset (no zone conversion). -/
def parseRFC3339 (s : String) : Option DateTime :=
  match s.data with
  | a0 :: a1 :: a2 :: a3 :: a4 :: a5 :: a6 :: a7 :: a8 :: a9 :: a10 ::
      a11 :: a12 :: a13 :: a14 :: a15 :: a16 :: a17 :: a18 :: rest =>
    if a4 == '-' && a7 == '-' && a10 == 'T' && a13 == ':' && a16 == ':' then
      match parseYear4 a0 a1 a2 a3, parse2 a5 a6 1 12 with
      | some y, some mo =>
        match parse2 a8 a9 1 (daysIn mo y), parse2 a11 a12 0 23,
              parse2 a14 a15 0 59, parse2 a17 a18 0 59 with
        | some d, some h, some mi, some se =>
          if zoneOK (afterFrac rest) then some ⟨y, mo, d, h, mi, se⟩ else none
        | _, _, _, _ => none
      | _, _ => none
    else none
  | _ => none

/-- Zero-pad to two digits (`Format` fields `01 02 15 04 05`). -/
def pad2 (n : Nat) : String := if n < 10 then "0" ++ toString n else toString n

/-- Zero-pad to four digits (`Format` field `2006`). -/
def pad4 (n : Nat) : String :=
  if n < 10 then "000" ++ toString n
  else if n < 100 then "00" ++ toString n
  else if n < 1000 then "0" ++ toString n
  else toString n

/-- `ti.Format("2006-01-02 15:04:05")` on the parsed wall clock. -/
def formatCreated (dt : DateTime) : String :=
  pad4 dt.year ++ "-" ++ pad2 dt.month ++ "-" ++ pad2 dt.day ++ " " ++
    pad2 dt.hour ++ ":" ++ pad2 dt.minute ++ ":" ++ pad2 dt.second

/-- The `row` struct of main.go.  `sizeBytes` models the `*int64`
pointer (`none` = `nil`); every other field is a string. -/
structure Row where
  podName : String
  podNamespace : String
  volume : String
  sizeBytes : Option Int
  sizeHuman : String
  created : String
  createdRFC3339 : String
  backupName : String
  resourceName : String
deriving Repr, DecidableEq, Inhabited

/-- Pod name of a record: `spec.pod.name` as a string, else `""`. -/
def podNameOf (item : Record) : String :=
  match nestedMap item "spec" with
  | some sp =>
    match nestedMap sp "pod" with
    | some pod => ((mapGet pod "name").bind GoVal.asString).getD ""
    | none => ""
  | none => ""

/-- Pod namespace of a record: `spec.pod.namespace` as a string, else `""`. -/
def podNamespaceOf (item : Record) : String :=
  match nestedMap item "spec" with
  | some sp =>
    match nestedMap sp "pod" with
    | some pod => ((mapGet pod "namespace").bind GoVal.asString).getD ""
    | none => ""
  | none => ""

/-- Volume of a record: `spec.volume` as a string, else `""`. -/
def volumeOf (item : Record) : String :=
  match nestedMap item "spec" with
  | some sp => ((mapGet sp "volume").bind GoVal.asString).getD ""
  | none => ""

/-- Backup name of a record: the `velero.io/backup-name` label, `""`
when the labels are absent (nil map) or the key is missing. -/
def backupNameOf (item : Record) : String :=
  match getLabels item with
  | some labels => strMapGet labels "velero.io/backup-name"
  | none => ""

/-- The size chosen from a `status.progress` map, exactly as the `else
if` chain of main.go: when the `totalBytes` key is present its coercion
decides the outcome (absent when it fails — `bytesDone` is NOT
consulted); only when the key itself is missing is `bytesDone` tried. -/
def sizeFromProgress (progress : List (String × GoVal)) : Option Int :=
  match mapGet progress "totalBytes" with
  | some v => getInt64 v
  | none =>
    match mapGet progress "bytesDone" with
    | some v => getInt64 v
    | none => none

/-- Size of a record: `status.progress` must be a present map, then
`sizeFromProgress`. -/
def sizeOf_ (item : Record) : Option Int :=
  match nestedMap item "status" with
  | some st =>
    match nestedMap st "progress" with
    | some progress => sizeFromProgress progress
    | none => none
  | none => none

/-- Raw creation timestamp of a record: `metadata.creationTimestamp`
as a string, `""` when absent or not a string. -/
def createdRFCOf (item : Record) : String :=
  (nestedString2 item "metadata" "creationTimestamp").getD ""

/-- Human creation timestamp: the reformatted parse when the raw string
is RFC 3339, the raw string itself otherwise, `""` when absent. -/
def createdOf (item : Record) : String :=
  match nestedString2 item "metadata" "creationTimestamp" with
  | some t =>
    match parseRFC3339 t with
    | some dt => formatCreated dt
    | none => t
  | none => ""

/-- The Row built by the loop body of main.go for one record. -/
def extractRow (item : Record) : Row where
  podName := podNameOf item
  podNamespace := podNamespaceOf item
  volume := volumeOf item
  sizeBytes := sizeOf_ item
  sizeHuman :=
    match sizeOf_ item with
    | some n => humanBytes n
    | none => ""
  created := createdOf item
  createdRFC3339 := createdRFCOf item
  backupName := backupNameOf item
  resourceName := getName item

/-- The collection loop of main.go: for each record, skip unless the
name has the prefix or `--all` is set, then apply the pod, namespace
and volume filters (in code order), and append the extracted Row. -/
def buildRows (allFlag : Bool) (pfx : String)
    (podNeedles nsAllowed volumeAllowed : List String) : List Record → List Row
  | [] => []
  | item :: rest =>
    let tail := buildRows allFlag pfx podNeedles nsAllowed volumeAllowed rest
    if !allFlag && !goHasPfx pfx (getName item) then tail
    else if podNeedles.length > 0 &&
        (podNameOf item == "" || !anyContainsFold (podNameOf item) podNeedles) then tail
    else if nsAllowed.length > 0 && !anyEqual (podNamespaceOf item) nsAllowed then tail
    else if volumeAllowed.length > 0 && !anyEqual (volumeOf item) volumeAllowed then tail
    else extractRow item :: tail

/-- The single inclusion predicate equivalent to the chain of
`continue` statements: none of the four skip conditions of the loop
body fires. -/
def includeRecord (allFlag : Bool) (pfx : String)
    (podNeedles nsAllowed volumeAllowed : List String) (item : Record) : Bool :=
  !(!allFlag && !goHasPfx pfx (getName item)) &&
  !(podNeedles.length > 0 &&
    (podNameOf item == "" || !anyContainsFold (podNameOf item) podNeedles)) &&
  !(nsAllowed.length > 0 && !anyEqual (podNamespaceOf item) nsAllowed) &&
  !(volumeAllowed.length > 0 && !anyEqual (volumeOf item) volumeAllowed)

/-- Go string comparison `<`: lexicographic on code points (equal to
byte order on valid UTF-8). -/
def charListLt : List Char → List Char → Bool
  | [], [] => false
  | [], _ :: _ => true
  | _ :: _, [] => false
  | a :: as, b :: bs => if a < b then true else if b < a then false else charListLt as bs

/-- Go `a < b` on strings. -/
def strLt (a b : String) : Bool := charListLt a.data b.data

/-- The comparator passed to `sort.Slice` in main.go: `podName` first,
`volume` when the pod names are equal. -/
def rowLess (ri rj : Row) : Bool :=
  if ri.podName == rj.podName then strLt ri.volume rj.volume
  else strLt ri.podName rj.podName

/-- Number of bits of a natural number (`bits.Len`); fuel-driven, the
fuel `x` always suffices. -/
def bitsLenAux : Nat → Nat → Nat
  | 0, _ => 0
  | fuel + 1, x => if x = 0 then 0 else 1 + bitsLenAux fuel (x / 2)

/-- `bits.Len(uint(x))`. -/
def bitsLen (x : Nat) : Nat := bitsLenAux x x

/-- One step of Go's `xorshift` generator on a 64-bit state. -/
def xorshiftNext (r : Nat) : Nat :=
  let r1 := (Nat.xor r ((r <<< 13) % 2 ^ 64)) % 2 ^ 64
  let r2 := Nat.xor r1 (r1 >>> 7)
  (Nat.xor r2 ((r2 <<< 17) % 2 ^ 64)) % 2 ^ 64

section GoSort

variable {α : Type} [Inhabited α] (less : α → α → Bool)

/-- Indexed read of the slice under sort (always in bounds in the
algorithm; the default is never produced). -/
def getE (l : List α) (i : Nat) : α := l.getD i default

/-- `data.Swap(i, j)`. -/
def swapL (l : List α) (i j : Nat) : List α :=
  let vi := getE l i
  let vj := getE l j
  (l.set i vj).set j vi

/-- Inner loop of `insertionSort_func`: move element `j` left while it
is less than its left neighbour and `j > a`. -/
def insInner (a : Nat) : Nat → List α → List α
  | 0, l => l
  | j + 1, l =>
    if j + 1 > a && less (getE l (j + 1)) (getE l j) then
      insInner a j (swapL l (j + 1) j)
    else l

/-- Outer loop of `insertionSort_func` over `i = a+1 … b-1`. -/
def insOuter (a b : Nat) : Nat → Nat → List α → List α
  | 0, _, l => l
  | fuel + 1, i, l => if i < b then insOuter a b fuel (i + 1) (insInner less a i l) else l

/-- `insertionSort_func(data, a, b)`. -/
def insertionSort (a b : Nat) (l : List α) : List α := insOuter less a b b (a + 1) l

/-- `siftDown_func(data, lo, hi, first)` with `lo` as the starting
root; fuel `hi` suffices since the root strictly descends the heap. -/
def siftDown (first hi : Nat) : Nat → Nat → List α → List α
  | 0, _, l => l
  | fuel + 1, root, l =>
    let child0 := 2 * root + 1
    if child0 ≥ hi then l
    else
      let child :=
        if child0 + 1 < hi && less (getE l (first + child0)) (getE l (first + child0 + 1)) then
          child0 + 1
        else child0
      if !less (getE l (first + root)) (getE l (first + child)) then l
      else siftDown first hi fuel child (swapL l (first + root) (first + child))

/-- First loop of `heapSort_func`: build the heap, `i = (hi-1)/2 … 0`
(the argument is `i + 1`). -/
def heapLoop1 (first hi : Nat) : Nat → List α → List α
  | 0, l => l
  | k + 1, l => heapLoop1 first hi k (siftDown less first hi hi k l)

/-- Second loop of `heapSort_func`: pop the maximum, `i = hi-1 … 0`
(the argument is `i + 1`). -/
def heapLoop2 (first : Nat) : Nat → List α → List α
  | 0, l => l
  | i + 1, l => heapLoop2 first i (siftDown less first i i 0 (swapL l first (first + i)))

/-- `heapSort_func(data, a, b)`. -/
def heapSort (a b : Nat) (l : List α) : List α :=
  let first := a
  let hi := b - a
  heapLoop2 less first hi (heapLoop1 less first hi ((hi - 1) / 2 + 1) l)

/-- `reverseRange_func(data, a, b)` (arguments: fuel, `i`, `j`). -/
def revRange : Nat → Nat → Nat → List α → List α
  | 0, _, _, l => l
  | fuel + 1, i, j, l => if i < j then revRange fuel (i + 1) (j - 1) (swapL l i j) else l

/-- `breakPatterns_func(data, a, b)`: three pseudo-random swaps around
the midpoint, xorshift seeded with the range length. -/
def breakPatterns (a b : Nat) (l : List α) : List α :=
  let len := b - a
  if len ≥ 8 then
    let modulus := 2 ^ bitsLen len
    let idx := a + len / 4 * 2 - 1
    let step := fun (r i : Nat) (l0 : List α) =>
      let r1 := xorshiftNext r
      let o0 := Nat.land r1 (modulus - 1)
      let o := if o0 ≥ len then o0 - len else o0
      (r1, swapL l0 (idx - 1 + i) (a + o))
    let s1 := step (len % 2 ^ 64) 0 l
    let s2 := step s1.1 1 s1.2
    let s3 := step s2.1 2 s2.2
    s3.2
  else l

/-- Sortedness hints of `choosePivot_func`. -/
inductive Hint where
  | unknown
  | increasing
  | decreasing
deriving DecidableEq, Repr

/-- `order2_func`: order two indices by their elements, counting a swap. -/
def order2 (l : List α) (a b swaps : Nat) : Nat × Nat × Nat :=
  if less (getE l b) (getE l a) then (b, a, swaps + 1) else (a, b, swaps)

/-- `median_func`: index of the median of three elements. -/
def median (l : List α) (a b c swaps : Nat) : Nat × Nat :=
  let r1 := order2 less l a b swaps
  let r2 := order2 less l r1.2.1 c r1.2.2
  let r3 := order2 less l r1.1 r2.1 r2.2.2
  (r3.2.1, r3.2.2)

/-- `medianAdjacent_func`: median of `x-1`, `x`, `x+1`. -/
def medianAdjacent (l : List α) (x swaps : Nat) : Nat × Nat :=
  median less l (x - 1) x (x + 1) swaps

/-- `choosePivot_func(data, a, b)`: static pivot below 8 elements,
median of three up to 49, Tukey ninther from 50; the swap count turns
into the sortedness hint (0 increasing, 12 decreasing). -/
def choosePivot (l : List α) (a b : Nat) : Nat × Hint :=
  let len := b - a
  let i0 := a + len / 4 * 1
  let j0 := a + len / 4 * 2
  let k0 := a + len / 4 * 3
  if len ≥ 8 then
    let rm :=
      if len ≥ 50 then
        let ri := medianAdjacent less l i0 0
        let rj := medianAdjacent less l j0 ri.2
        let rk := medianAdjacent less l k0 rj.2
        median less l ri.1 rj.1 rk.1 rk.2
      else
        median less l i0 j0 k0 0
    (rm.1, if rm.2 = 0 then .increasing else if rm.2 = 12 then .decreasing else .unknown)
  else
    (j0, .increasing)

/-- First inner `for` of `partition_func`: advance `i` while the
element is less than the pivot at `a`. -/
def partAdvI (l : List α) (a j : Nat) : Nat → Nat → Nat
  | 0, i => i
  | fuel + 1, i =>
    if i ≤ j && less (getE l i) (getE l a) then partAdvI l a j fuel (i + 1) else i

/-- Second inner `for` of `partition_func`: retreat `j` while the
element is not less than the pivot at `a`. -/
def partDecJ (l : List α) (a i : Nat) : Nat → Nat → Nat
  | 0, j => j
  | fuel + 1, j =>
    if i ≤ j && !less (getE l j) (getE l a) then partDecJ l a i fuel (j - 1) else j

/-- Main exchange loop of `partition_func`. -/
def partLoop (fb a : Nat) : Nat → Nat → Nat → List α → Nat × List α
  | 0, _, j, l => (j, l)
  | fuel + 1, i, j, l =>
    let i1 := partAdvI less l a j fb i
    let j1 := partDecJ less l a i1 fb j
    if i1 > j1 then (j1, l)
    else partLoop fb a fuel (i1 + 1) (j1 - 1) (swapL l i1 j1)

/-- `partition_func(data, a, b, pivot)`: result is the new pivot
index, the already-partitioned flag and the permuted slice. -/
def partitionGo (fb a b pivot : Nat) (l : List α) : Nat × Bool × List α :=
  let l0 := swapL l a pivot
  let i1 := partAdvI less l0 a (b - 1) fb (a + 1)
  let j1 := partDecJ less l0 a i1 fb (b - 1)
  if i1 > j1 then (j1, true, swapL l0 j1 a)
  else
    let r := partLoop less fb a fb (i1 + 1) (j1 - 1) (swapL l0 i1 j1)
    (r.1, false, swapL r.2 r.1 a)

/-- First inner `for` of `partitionEqual_func`. -/
def peAdvI (l : List α) (a j : Nat) : Nat → Nat → Nat
  | 0, i => i
  | fuel + 1, i =>
    if i ≤ j && !less (getE l a) (getE l i) then peAdvI l a j fuel (i + 1) else i

/-- Second inner `for` of `partitionEqual_func`. -/
def peDecJ (l : List α) (a i : Nat) : Nat → Nat → Nat
  | 0, j => j
  | fuel + 1, j =>
    if i ≤ j && less (getE l a) (getE l j) then peDecJ l a i fuel (j - 1) else j

/-- Exchange loop of `partitionEqual_func`; returns the final `i`. -/
def peLoop (fb a : Nat) : Nat → Nat → Nat → List α → Nat × List α
  | 0, i, _, l => (i, l)
  | fuel + 1, i, j, l =>
    let i1 := peAdvI less l a j fb i
    let j1 := peDecJ less l a i1 fb j
    if i1 > j1 then (i1, l)
    else peLoop fb a fuel (i1 + 1) (j1 - 1) (swapL l i1 j1)

/-- `partitionEqual_func(data, a, b, pivot)`. -/
def partitionEqualGo (fb a b pivot : Nat) (l : List α) : Nat × List α :=
  peLoop less fb a fb (a + 1) (b - 1) (swapL l a pivot)

/-- Skip the sorted run in `partialInsertionSort_func`: advance `i`
while the element at `i` is not less than its predecessor. -/
def pisAdvance (l : List α) (b : Nat) : Nat → Nat → Nat
  | 0, i => i
  | fuel + 1, i =>
    if i < b && !less (getE l i) (getE l (i - 1)) then pisAdvance l b fuel (i + 1) else i

/-- Left shift loop of `partialInsertionSort_func`. -/
def pisShiftL : Nat → Nat → List α → List α
  | 0, _, l => l
  | fuel + 1, j, l =>
    if j ≥ 1 then
      if !less (getE l j) (getE l (j - 1)) then l
      else pisShiftL fuel (j - 1) (swapL l j (j - 1))
    else l

/-- Right shift loop of `partialInsertionSort_func`. -/
def pisShiftR (b : Nat) : Nat → Nat → List α → List α
  | 0, _, l => l
  | fuel + 1, j, l =>
    if j < b then
      if !less (getE l j) (getE l (j - 1)) then l
      else pisShiftR b fuel (j + 1) (swapL l j (j - 1))
    else l

/-- The `maxSteps`-bounded body of `partialInsertionSort_func`; the
first component is the "already sorted" result. -/
def pisSteps (fb a b : Nat) : Nat → Nat → List α → Bool × List α
  | 0, _, l => (false, l)
  | fuel + 1, i, l =>
    let i1 := pisAdvance less l b fb i
    if i1 = b then (true, l)
    else if b - a < 50 then (false, l)
    else
      let l1 := swapL l i1 (i1 - 1)
      let l2 := if i1 - a ≥ 2 then pisShiftL less fb (i1 - 1) l1 else l1
      let l3 := if b - i1 ≥ 2 then pisShiftR less b fb (i1 + 1) l2 else l2
      pisSteps fb a b fuel i1 l3

/-- `partialInsertionSort_func(data, a, b)` (`maxSteps = 5`). -/
def partInsertionSort (fb a b : Nat) (l : List α) : Bool × List α :=
  pisSteps less fb a b 5 (a + 1) l

/-- `pdqsort_func(data, a, b, limit)` with the per-call state
`wasBalanced`/`wasPartitioned` (both start `true`); the `for` loop and
the recursive calls both consume one unit of fuel, and every such step
shrinks the range, so the fuel passed by `sortSlice` is never
exhausted. -/
def pdqsortRec : Nat → Nat → Nat → Nat → Bool → Bool → List α → List α
  | 0, _, _, _, _, _, l => l
  | fuel + 1, a, b, limit, wasBalanced, wasPartitioned, l =>
    let len := b - a
    if len ≤ 12 then insertionSort less a b l
    else if limit = 0 then heapSort less a b l
    else
      let st := if !wasBalanced then (breakPatterns a b l, limit - 1) else (l, limit)
      let l0 := st.1
      let limit1 := st.2
      let cp := choosePivot less l0 a b
      let st2 :=
        if cp.2 = Hint.decreasing then
          (revRange b a (b - 1) l0, (b - 1) - (cp.1 - a), Hint.increasing)
        else (l0, cp.1, cp.2)
      let l1 := st2.1
      let pivot := st2.2.1
      let hint := st2.2.2
      let pis :=
        if wasBalanced && wasPartitioned && hint = Hint.increasing then
          partInsertionSort less (b + 2) a b l1
        else (false, l1)
      if pis.1 then pis.2
      else
        let l2 := pis.2
        if a > 0 && !less (getE l2 (a - 1)) (getE l2 pivot) then
          let pe := partitionEqualGo less (b + 2) a b pivot l2
          pdqsortRec fuel pe.1 b limit1 wasBalanced wasPartitioned pe.2
        else
          let pr := partitionGo less (b + 2) a b pivot l2
          let mid := pr.1
          let alreadyPartitioned := pr.2.1
          let l3 := pr.2.2
          let leftLen := mid - a
          let rightLen := b - mid
          let wasBalanced2 := decide (min leftLen rightLen ≥ len / 8)
          if leftLen < rightLen then
            let l4 := pdqsortRec fuel a mid limit1 true true l3
            pdqsortRec fuel (mid + 1) b limit1 wasBalanced2 alreadyPartitioned l4
          else
            let l4 := pdqsortRec fuel (mid + 1) b limit1 true true l3
            pdqsortRec fuel a mid limit1 wasBalanced2 alreadyPartitioned l4

/-- `sort.Slice(x, less)`: `pdqsort(data, 0, length, bits.Len(length))`. -/
def sortSlice (l : List α) : List α :=
  let n := l.length
  pdqsortRec less (2 * n + 2) 0 n (bitsLen n) true true l

end GoSort

/-- The sort statement of main.go applied to the built rows. -/
def sortRows (rows : List Row) : List Row := sortSlice rowLess rows

/-- Size cell of the table, csv and pretty renderers: `"-"` when the
pointer is nil, else `sizeHuman` with a recomputation fallback when
that string is empty. -/
def renderedSize (r : Row) : String :=
  match r.sizeBytes with
  | none => "-"
  | some n => if r.sizeHuman == "" then humanBytes n else r.sizeHuman

/-- Created cell of the table, csv and pretty renderers: `created`,
falling back to `createdRFC3339` when `created` is empty. -/
def renderedCreated (r : Row) : String :=
  if r.created == "" && !(r.createdRFC3339 == "") then r.createdRFC3339 else r.created

/-- Lowercase hexadecimal digit. -/
def hexDigit (n : Nat) : Char :=
  if n < 10 then Char.ofNat ('0'.toNat + n) else Char.ofNat ('a'.toNat + n - 10)

/-- One character under `encoding/json` string escaping with the
encoder's default HTML escaping (`"` `\` control characters, `<` `>`
`&` as `\uXXXX`, and U+2028/U+2029). -/
def jsonEscapeChar (c : Char) : List Char :=
  if c = '"' then ['\\', '"']
  else if c = '\\' then ['\\', '\\']
  else if c = '\n' then ['\\', 'n']
  else if c = '\r' then ['\\', 'r']
  else if c = '\t' then ['\\', 't']
  else if c.toNat < 0x20 then ['\\', 'u', '0', '0', hexDigit (c.toNat / 16), hexDigit (c.toNat % 16)]
  else if c = '<' then ['\\', 'u', '0', '0', '3', 'c']
  else if c = '>' then ['\\', 'u', '0', '0', '3', 'e']
  else if c = '&' then ['\\', 'u', '0', '0', '2', '6']
  else if c.toNat = 0x2028 then ['\\', 'u', '2', '0', '2', '8']
  else if c.toNat = 0x2029 then ['\\', 'u', '2', '0', '2', '9']
  else [c]

/-- A JSON string literal for `s`. -/
def jsonQuote (s : String) : String := ⟨'"' :: ((s.data.map jsonEscapeChar).flatten ++ ['"'])⟩

/-- The key/value pairs the JSON (and YAML) encoder emits for one Row,
in struct order: `podName`, `podNamespace`, `volume` always;
`sizeBytes`, `sizeHuman`, `created`, `createdRFC3339`, `backupName`,
`resourceName` carry `omitempty`, so a nil pointer or empty string is
omitted.  Values are rendered JSON tokens. -/
def rowJSONFields (r : Row) : List (String × String) :=
  [("podName", jsonQuote r.podName),
   ("podNamespace", jsonQuote r.podNamespace),
   ("volume", jsonQuote r.volume)] ++
  (match r.sizeBytes with
   | some n => [("sizeBytes", toString n)]
   | none => []) ++
  (if r.sizeHuman == "" then [] else [("sizeHuman", jsonQuote r.sizeHuman)]) ++
  (if r.created == "" then [] else [("created", jsonQuote r.created)]) ++
  (if r.createdRFC3339 == "" then [] else [("createdRFC3339", jsonQuote r.createdRFC3339)]) ++
  (if r.backupName == "" then [] else [("backupName", jsonQuote r.backupName)]) ++
  (if r.resourceName == "" then [] else [("resourceName", jsonQuote r.resourceName)])

/-- Join strings with a separator. -/
def joinSep (sep : String) : List String → String
  | [] => ""
  | [x] => x
  | x :: xs => x ++ sep ++ joinSep sep xs

/-- One Row as a pretty-printed JSON object at array depth (the
encoder's 2-space indent: fields at two levels, closing brace at one). -/
def rowJSONObject (r : Row) : String :=
  "\x7b\n" ++
    joinSep ",\n" ((rowJSONFields r).map (fun kv => "    " ++ jsonQuote kv.1 ++ ": " ++ kv.2)) ++
    "\n  \x7d"

/-- The json output mode: `json.Encoder` with `SetIndent("", "  ")` on
the Row slice, plus the encoder's trailing newline. -/
def renderJSON (rows : List Row) : String :=
  match rows with
  | [] => "[]\n"
  | _ => "[\n" ++ joinSep ",\n" (rows.map (fun r => "  " ++ rowJSONObject r)) ++ "\n]\n"

/-- The whole core pipeline of main.go: split the three filter flags,
build the filtered rows and sort them with `sort.Slice`. -/
def pipeline (allFlag : Bool) (pfx podFlag podNSFlag volumeFlag : String)
    (items : List Record) : List Row :=
  sortRows (buildRows allFlag pfx (splitCSV podFlag) (splitCSV podNSFlag) (splitCSV volumeFlag) items)

/-- First raw record of the spec's end-to-end scenario. -/
def scenarioRec1 : Record :=
  [("metadata", .vMap [("name", .vString "b-1"),
                       ("creationTimestamp", .vString "2024-01-01T00:00:00Z")]),
   ("spec", .vMap [("pod", .vMap [("name", .vString "nginx"), ("namespace", .vString "prod")]),
                   ("volume", .vString "data")]),
   ("status", .vMap [("progress", .vMap [("totalBytes", .vInt64 2048)])])]

/-- Second raw record of the spec's end-to-end scenario (no size, no
timestamp). -/
def scenarioRec2 : Record :=
  [("metadata", .vMap [("name", .vString "b-2")]),
   ("spec", .vMap [("pod", .vMap [("name", .vString "redis"), ("namespace", .vString "dev")]),
                   ("volume", .vString "cache")])]

/-- The size preference as the specification words it: `totalBytes` if
present AND coercible, OTHERWISE (also when `totalBytes` is present but
not coercible) `bytesDone` if present and coercible, otherwise absent.
Stated from the spec only, for comparison with `sizeFromProgress`. -/
def specPreferredSize (progress : List (String × GoVal)) : Option Int :=
  match (mapGet progress "totalBytes").bind getInt64 with
  | some n => some n
  | none => (mapGet progress "bytesDone").bind getInt64

/-- A progress map whose `totalBytes` is present but not numeric while
`bytesDone` is a plain integer. -/
def c1CexProgress : List (String × GoVal) :=
  [("totalBytes", .vBool true), ("bytesDone", .vInt64 5)]

/-- A record carrying `c1CexProgress` under `status.progress`. -/
def c1CexRecord : Record :=
  [("status", .vMap [("progress", .vMap c1CexProgress)])]

/-- The exponent `exp` computed by the loop of `humanBytes` (for
`b ≥ 1024`): the number of extra 1024-divisions of `b / 1024`. -/
def humanExp (b : Int) : Nat := Nat.log 1024 (b.toNat / 1024)

/-- A Row fixture with the given pod name, volume and resource name
(every other field empty/absent). -/
def mkRow (pn vol rn : String) : Row where
  podName := pn
  podNamespace := ""
  volume := vol
  sizeBytes := none
  sizeHuman := ""
  created := ""
  createdRFC3339 := ""
  backupName := ""
  resourceName := rn

/-- Earlier of the two Rows with identical sort keys (`podName = "c"`,
`volume = "v"`); input position 2. -/
def c2RowA : Row := mkRow "c" "v" "A"

/-- Later of the two Rows with identical sort keys; input position 6. -/
def c2RowB : Row := mkRow "c" "v" "B"

/-- A 13-row input (just above the 12-element insertion-sort cutoff of
pdqsort) containing the equal-key pair `c2RowA` (earlier) and `c2RowB`
(later). -/
def c2Input : List Row :=
  [mkRow "e0" "v" "r0", mkRow "b" "v" "r1", c2RowA, mkRow "a" "v" "r3",
   mkRow "d" "v" "r4", mkRow "f" "v" "r5", c2RowB, mkRow "g" "v" "r7",
   mkRow "h" "v" "r8", mkRow "i" "v" "r9", mkRow "j" "v" "r10",
   mkRow "k" "v" "r11", mkRow "l" "v" "r12"]

/-- The empty raw record: every extraction path degrades on it. -/
def emptyRec : Record := []

/-- A record whose observed size is the legitimate value zero. -/
def zeroSizeRec : Record :=
  [("metadata", .vMap [("name", .vString "b-0")]),
   ("status", .vMap [("progress", .vMap [("totalBytes", .vInt64 0)])])]

/-- The nine JSON field names of the `row` struct, in struct order. -/
def rowJSONKeys : List String :=
  ["podName", "podNamespace", "volume", "sizeBytes", "sizeHuman", "created",
   "createdRFC3339", "backupName", "resourceName"]

theorem string_append_ne_empty (s t : String) (h : t.data ≠ []) : s ++ t ≠ "" := by
  intro hc
  apply h
  have hd := congrArg String.data hc
  rw [String.data_append] at hd
  exact (List.append_eq_nil.mp hd).2

theorem humanLoop_spec : ∀ (fuel n divAcc e : Nat), n ≤ fuel →
    humanLoop fuel n divAcc e = (divAcc * 1024 ^ Nat.log 1024 n, e + Nat.log 1024 n) := by
  intro fuel
  induction fuel with
  | zero =>
    intro n divAcc e hn
    have hn0 : n = 0 := by omega
    subst hn0
    simp [humanLoop, Nat.log_zero_right]
  | succ fuel ih =>
    intro n divAcc e hn
    by_cases h : n ≥ 1024
    · have hdiv : n / 1024 ≤ fuel := by
        have : n / 1024 < n := Nat.div_lt_self (by omega) (by omega)
        omega
      have hpos : 0 < Nat.log 1024 n := Nat.log_pos (by norm_num) h
      have hlog : Nat.log 1024 n = Nat.log 1024 (n / 1024) + 1 := by
        have h2 := Nat.log_div_base 1024 n
        omega
      simp only [humanLoop, if_pos h]
      rw [ih _ _ _ hdiv, hlog, Prod.mk.injEq]
      constructor
      · ring
      · omega
    · have hlt : n < 1024 := by omega
      have hlog : Nat.log 1024 n = 0 := Nat.log_eq_zero_iff.mpr (Or.inl hlt)
      simp [humanLoop, if_neg h, hlog]

theorem humanBytes_lt_1024 (b : Int) (h : b < 1024) : humanBytes b = toString b ++ " B" := by
  simp only [humanBytes, if_pos h]
  rfl

theorem humanBytes_ge_1024 (b : Int) (hb : 1024 ≤ b) :
    humanBytes b = toString (formatF1Frac b.toNat (1024 * 1024 ^ humanExp b)) ++
      toString " " ++ toString (unitChars.getD (humanExp b) '?') ++ toString "iB" := by
  have hb' : ¬ b < 1024 := by omega
  simp only [humanBytes, if_neg hb']
  rw [humanLoop_spec b.toNat (b.toNat / 1024) 1024 0 (Nat.div_le_self _ _)]
  simp only [Nat.zero_add]
  rfl

theorem humanExp_mono (m n : Int) (h : m ≤ n) : humanExp m ≤ humanExp n := by
  unfold humanExp
  exact Nat.log_mono_right (Nat.div_le_div_right (Int.toNat_le_toNat h))

theorem humanExp_le_5 (b : Int) (hb : b < 2 ^ 63) : humanExp b ≤ 5 := by
  unfold humanExp
  have hlt : b.toNat / 1024 < 1024 ^ 6 := by
    have h1 : b.toNat < 2 ^ 63 := by
      rcases Int.le_total b 0 with h | h
      · have : b.toNat = 0 := Int.toNat_of_nonpos h
        omega
      · omega
    have h2 : b.toNat / 1024 < 2 ^ 53 := (Nat.div_lt_iff_lt_mul (by norm_num)).mpr (by omega)
    calc b.toNat / 1024 < 2 ^ 53 := h2
      _ < 1024 ^ 6 := by norm_num
  rcases Nat.eq_zero_or_pos (b.toNat / 1024) with h0 | h0
  · rw [h0, Nat.log_zero_right]; omega
  · have := Nat.log_lt_of_lt_pow (by omega : b.toNat / 1024 ≠ 0) hlt
    omega

theorem humanBytes_ne_empty (b : Int) : humanBytes b ≠ "" := by
  by_cases h : b < 1024
  · rw [humanBytes_lt_1024 b h]
    exact string_append_ne_empty _ _ (by decide)
  · rw [humanBytes_ge_1024 b (by omega)]
    exact string_append_ne_empty _ _ (by decide)

/-- C4: for every byte count `n ≥ 0`, `humanBytes n` is `"<n> B"` when
`n < 1024`; otherwise it is the magnitude to one decimal place followed
by a space and the unit character `"KMGTPE"[exp]` plus `"iB"`, where the
unit index `humanExp` is monotonically non-decreasing as `n` grows
across the 1024 thresholds; the boundary values 1023, 1024 and 1048576
render exactly as `"1023 B"`, `"1.0 KiB"` and `"1.0 MiB"`. -/
theorem c4_humanBytes_units :
    (∀ n : Int, 0 ≤ n → n < 1024 → humanBytes n = toString n ++ " B") ∧
    (∀ n : Int, 1024 ≤ n →
      humanBytes n = toString (formatF1Frac n.toNat (1024 * 1024 ^ humanExp n)) ++
        toString " " ++ toString (unitChars.getD (humanExp n) '?') ++ toString "iB") ∧
    (∀ m n : Int, 1024 ≤ m → m ≤ n → humanExp m ≤ humanExp n) ∧
    humanBytes 1023 = "1023 B" ∧ humanBytes 1024 = "1.0 KiB" ∧
    humanBytes 1048576 = "1.0 MiB" :=
  ⟨fun n _ h => humanBytes_lt_1024 n h,
   fun n h => humanBytes_ge_1024 n h,
   fun m n _ h => humanExp_mono m n h,
   by decide, by decide, by decide⟩

theorem c4_humanBytes_units_witness :
    humanBytes 100 = toString (100 : Int) ++ " B" ∧
    humanBytes 2048 = toString (formatF1Frac (2048 : Int).toNat (1024 * 1024 ^ humanExp 2048)) ++
      toString " " ++ toString (unitChars.getD (humanExp 2048) '?') ++ toString "iB" ∧
    humanExp 1024 ≤ humanExp 1048576 :=
  ⟨c4_humanBytes_units.1 100 (by decide) (by decide),
   c4_humanBytes_units.2.1 2048 (by decide),
   c4_humanBytes_units.2.2.1 1024 1048576 (by decide) (by decide)⟩

/-- C10: `humanBytes` is total on the whole int64 range, including the
negative values the size coercion lets through: every `b < 1024` (in
particular every negative `b`) renders as `"<b> B"`, and for every
`b ≥ 1024` in range the computed unit index stays below the length of
`"KMGTPE"`, so the character lookup never goes out of bounds. -/
theorem c10_humanBytes_total :
    (∀ b : Int, int64Min ≤ b → b < 1024 → humanBytes b = toString b ++ " B") ∧
    (∀ b : Int, 1024 ≤ b → b ≤ int64Max → humanExp b < unitChars.length) := by
  constructor
  · exact fun b _ h => humanBytes_lt_1024 b h
  · intro b h1 h2
    have hb : b < 2 ^ 63 := by
      have : int64Max = 2 ^ 63 - 1 := by decide
      omega
    have h5 : humanExp b ≤ 5 := humanExp_le_5 b hb
    show humanExp b < 6
    omega

theorem c10_humanBytes_total_witness :
    humanBytes (-5) = toString (-5 : Int) ++ " B" ∧
    humanExp 9223372036854775807 < unitChars.length :=
  ⟨c10_humanBytes_total.1 (-5) (by decide) (by decide),
   c10_humanBytes_total.2 9223372036854775807 (by decide) (by decide)⟩

/-- C5: in every Row the extractor produces, `sizeHuman` is non-empty
exactly when `sizeBytes` is present; a coercible size of zero yields
`sizeBytes = some 0` with `sizeHuman = "0 B"`, never an absent size. -/
theorem c5_sizeHuman_iff_sizeBytes :
    (∀ item : Record, (extractRow item).sizeHuman ≠ "" ↔ (extractRow item).sizeBytes ≠ none) ∧
    (∀ item : Record, (extractRow item).sizeBytes = some 0 →
      (extractRow item).sizeHuman = "0 B") := by
  constructor
  · intro item
    show (match sizeOf_ item with | some n => humanBytes n | none => "") ≠ "" ↔
      sizeOf_ item ≠ none
    cases h : sizeOf_ item with
    | none => simp
    | some n => simp [humanBytes_ne_empty n]
  · intro item h
    show (match sizeOf_ item with | some n => humanBytes n | none => "") = "0 B"
    have h' : sizeOf_ item = some 0 := h
    simp only [h']
    decide

theorem c5_sizeHuman_iff_sizeBytes_witness :
    ((extractRow zeroSizeRec).sizeHuman ≠ "" ↔ (extractRow zeroSizeRec).sizeBytes ≠ none) ∧
    (extractRow zeroSizeRec).sizeHuman = "0 B" :=
  ⟨c5_sizeHuman_iff_sizeBytes.1 zeroSizeRec,
   c5_sizeHuman_iff_sizeBytes.2 zeroSizeRec rfl⟩

/-- C6: on the two scenario records with prefix `"b-"` and no other
filters, the pipeline keeps both rows, places the `nginx` row before
the `redis` row, and renders their sizes as `"2.0 KiB"` and `"-"`. -/
theorem c6_scenario :
    (pipeline false "b-" "" "" "" [scenarioRec1, scenarioRec2]).map
        (fun r => (r.podName, renderedSize r)) =
      [("nginx", "2.0 KiB"), ("redis", "-")] := by decide

/-- C7: the raw `metadata.creationTimestamp` string, when present, is
retained verbatim in `createdRFC3339`; `created` is the
`YYYY-MM-DD HH:MM:SS` rendering of the parsed wall clock when the
string parses as RFC 3339 and the raw string unchanged when it does
not; when the field is absent both strings are empty. -/
theorem c7_timestamps :
    (∀ (item : Record) (t : String),
      nestedString2 item "metadata" "creationTimestamp" = some t →
        (extractRow item).createdRFC3339 = t ∧
        (∀ dt, parseRFC3339 t = some dt → (extractRow item).created = formatCreated dt) ∧
        (parseRFC3339 t = none → (extractRow item).created = t)) ∧
    (∀ item : Record, nestedString2 item "metadata" "creationTimestamp" = none →
      (extractRow item).createdRFC3339 = "" ∧ (extractRow item).created = "") := by
  constructor
  · intro item t h
    refine ⟨?_, ?_, ?_⟩
    · show createdRFCOf item = t
      rw [createdRFCOf, h]
      rfl
    · intro dt hdt
      show createdOf item = formatCreated dt
      simp only [createdOf, h, hdt]
    · intro hn
      show createdOf item = t
      simp only [createdOf, h, hn]
  · intro item h
    constructor
    · show createdRFCOf item = ""
      rw [createdRFCOf, h]
      rfl
    · show createdOf item = ""
      simp only [createdOf, h]

theorem c7_timestamps_witness :
    (extractRow scenarioRec1).createdRFC3339 = "2024-01-01T00:00:00Z" ∧
    (extractRow scenarioRec1).created = formatCreated ⟨2024, 1, 1, 0, 0, 0⟩ ∧
    (extractRow scenarioRec2).createdRFC3339 = "" ∧
    (extractRow scenarioRec2).created = "" :=
  ⟨(c7_timestamps.1 scenarioRec1 "2024-01-01T00:00:00Z" rfl).1,
   (c7_timestamps.1 scenarioRec1 "2024-01-01T00:00:00Z" rfl).2.1 ⟨2024, 1, 1, 0, 0, 0⟩ (by decide),
   (c7_timestamps.2 scenarioRec2 rfl).1,
   (c7_timestamps.2 scenarioRec2 rfl).2⟩

/-- C9: Row construction is total and silently degrading: a missing or
wrong-typed `spec`, `spec.pod`, label map, `status`, `status.progress`
or `metadata.creationTimestamp` yields empty/absent fields rather than
an error, and every Row field is a function of its own source path
alone, so extracting one field can never alter another. -/
theorem c9_extraction_total_and_independent :
    (∀ item : Record, nestedMap item "spec" = none →
        (extractRow item).podName = "" ∧ (extractRow item).podNamespace = "" ∧
        (extractRow item).volume = "") ∧
    (∀ (item : Record) (sp : List (String × GoVal)), nestedMap item "spec" = some sp →
        nestedMap sp "pod" = none →
        (extractRow item).podName = "" ∧ (extractRow item).podNamespace = "") ∧
    (∀ item : Record, getLabels item = none → (extractRow item).backupName = "") ∧
    (∀ item : Record, nestedMap item "status" = none →
        (extractRow item).sizeBytes = none ∧ (extractRow item).sizeHuman = "") ∧
    (∀ (item : Record) (st : List (String × GoVal)), nestedMap item "status" = some st →
        nestedMap st "progress" = none →
        (extractRow item).sizeBytes = none ∧ (extractRow item).sizeHuman = "") ∧
    (∀ item : Record, nestedString2 item "metadata" "creationTimestamp" = none →
        (extractRow item).created = "" ∧ (extractRow item).createdRFC3339 = "") ∧
    (∀ i1 i2 : Record, nestedMap i1 "spec" = nestedMap i2 "spec" →
        (extractRow i1).podName = (extractRow i2).podName ∧
        (extractRow i1).podNamespace = (extractRow i2).podNamespace ∧
        (extractRow i1).volume = (extractRow i2).volume) ∧
    (∀ i1 i2 : Record, nestedMap i1 "status" = nestedMap i2 "status" →
        (extractRow i1).sizeBytes = (extractRow i2).sizeBytes ∧
        (extractRow i1).sizeHuman = (extractRow i2).sizeHuman) ∧
    (∀ i1 i2 : Record, nestedMap i1 "metadata" = nestedMap i2 "metadata" →
        (extractRow i1).created = (extractRow i2).created ∧
        (extractRow i1).createdRFC3339 = (extractRow i2).createdRFC3339 ∧
        (extractRow i1).backupName = (extractRow i2).backupName ∧
        (extractRow i1).resourceName = (extractRow i2).resourceName) := by
  refine ⟨?_, ?_, ?_, ?_, ?_, ?_, ?_, ?_, ?_⟩
  · intro item h
    refine ⟨?_, ?_, ?_⟩
    · show podNameOf item = ""
      simp only [podNameOf, h]
    · show podNamespaceOf item = ""
      simp only [podNamespaceOf, h]
    · show volumeOf item = ""
      simp only [volumeOf, h]
  · intro item sp hs hp
    constructor
    · show podNameOf item = ""
      simp only [podNameOf, hs, hp]
    · show podNamespaceOf item = ""
      simp only [podNamespaceOf, hs, hp]
  · intro item h
    show backupNameOf item = ""
    simp only [backupNameOf, h]
  · intro item h
    constructor
    · show sizeOf_ item = none
      simp only [sizeOf_, h]
    · show (match sizeOf_ item with | some n => humanBytes n | none => "") = ""
      have : sizeOf_ item = none := by simp only [sizeOf_, h]
      simp only [this]
  · intro item st hs hp
    constructor
    · show sizeOf_ item = none
      simp only [sizeOf_, hs, hp]
    · show (match sizeOf_ item with | some n => humanBytes n | none => "") = ""
      have : sizeOf_ item = none := by simp only [sizeOf_, hs, hp]
      simp only [this]
  · intro item h
    constructor
    · show createdOf item = ""
      simp only [createdOf, h]
    · show createdRFCOf item = ""
      simp only [createdRFCOf, h]
      rfl
  · intro i1 i2 h
    refine ⟨?_, ?_, ?_⟩
    · show podNameOf i1 = podNameOf i2
      simp only [podNameOf, h]
    · show podNamespaceOf i1 = podNamespaceOf i2
      simp only [podNamespaceOf, h]
    · show volumeOf i1 = volumeOf i2
      simp only [volumeOf, h]
  · intro i1 i2 h
    have hs : sizeOf_ i1 = sizeOf_ i2 := by simp only [sizeOf_, h]
    constructor
    · exact hs
    · show (match sizeOf_ i1 with | some n => humanBytes n | none => "") =
        (match sizeOf_ i2 with | some n => humanBytes n | none => "")
      rw [hs]
  · intro i1 i2 h
    have hcr : nestedString2 i1 "metadata" "creationTimestamp" =
        nestedString2 i2 "metadata" "creationTimestamp" := by
      simp only [nestedString2, h]
    refine ⟨?_, ?_, ?_, ?_⟩
    · show createdOf i1 = createdOf i2
      simp only [createdOf, hcr]
    · show createdRFCOf i1 = createdRFCOf i2
      simp only [createdRFCOf, hcr]
    · show backupNameOf i1 = backupNameOf i2
      simp only [backupNameOf, getLabels, h]
    · show getName i1 = getName i2
      simp only [getName, nestedString2, h]

theorem c9_extraction_witness :
    (extractRow emptyRec).podName = "" ∧ (extractRow emptyRec).volume = "" ∧
    (extractRow emptyRec).backupName = "" ∧ (extractRow emptyRec).sizeBytes = none ∧
    (extractRow emptyRec).sizeHuman = "" ∧ (extractRow emptyRec).created = "" ∧
    (extractRow scenarioRec1).podName = (extractRow scenarioRec1).podName :=
  ⟨(c9_extraction_total_and_independent.1 emptyRec rfl).1,
   (c9_extraction_total_and_independent.1 emptyRec rfl).2.2,
   c9_extraction_total_and_independent.2.2.1 emptyRec rfl,
   (c9_extraction_total_and_independent.2.2.2.1 emptyRec rfl).1,
   (c9_extraction_total_and_independent.2.2.2.1 emptyRec rfl).2,
   (c9_extraction_total_and_independent.2.2.2.2.2.1 emptyRec rfl).1,
   (c9_extraction_total_and_independent.2.2.2.2.2.2.1 scenarioRec1 scenarioRec1 rfl).1⟩

/-- C1 counterexample: in `c1CexProgress` the `totalBytes` key is
present but non-numeric and `bytesDone` is a coercible 5; the spec's
preference (`specPreferredSize`) yields 5, but the code
(`sizeFromProgress`, via the extractor) yields no size at all, because
the `else if` consults `bytesDone` only when the `totalBytes` KEY is
absent.  Coercion is also not uniform across representations: the
numeric string `"3.5"` is rejected while the float 3.5 truncates. -/
theorem c1_size_preference_counterexample :
    (extractRow c1CexRecord).sizeBytes = none ∧
    specPreferredSize c1CexProgress = some 5 ∧
    (mapGet c1CexProgress "bytesDone").bind getInt64 = some 5 ∧
    getInt64 ((mapGet c1CexProgress "totalBytes").getD GoVal.vNull) = none ∧
    getInt64 (GoVal.vString "3.5") = none ∧
    getInt64 (GoVal.vFloat64 ⟨7, 2, by decide, by decide⟩) = some 3 := by decide

/-- C1 amended: when `status.progress` is a present map, the size is
decided by the `totalBytes` key alone whenever that key exists (its
coercion, absent if the coercion fails — `bytesDone` is not consulted);
`bytesDone`'s coercion is used only when the `totalBytes` key itself is
missing.  Coercion accepts Go `int64`/`int32`/`int`, `float64`
(truncation toward zero) and decimal integer strings or JSON numbers
within the int64 range; every other representation is absent, not an
error. -/
theorem c1_size_preference_amended :
    (∀ (item : Record) (st progress : List (String × GoVal)),
      nestedMap item "status" = some st → nestedMap st "progress" = some progress →
        (∀ v, mapGet progress "totalBytes" = some v →
          (extractRow item).sizeBytes = getInt64 v) ∧
        (mapGet progress "totalBytes" = none →
          (extractRow item).sizeBytes = (mapGet progress "bytesDone").bind getInt64)) ∧
    (∀ n : Int, getInt64 (.vInt64 n) = some n) ∧
    (∀ n : Int, getInt64 (.vInt32 n) = some n) ∧
    (∀ n : Int, getInt64 (.vInt n) = some n) ∧
    (∀ q : ℚ, getInt64 (.vFloat64 q) = some (ratTruncToInt q)) ∧
    (∀ s : String, getInt64 (.vString s) = parseInt64 s) ∧
    (∀ s : String, getInt64 (.vJSONNumber s) = parseInt64 s) ∧
    (∀ b : Bool, getInt64 (.vBool b) = none) ∧
    getInt64 .vNull = none := by
  refine ⟨?_, fun _ => rfl, fun _ => rfl, fun _ => rfl, fun _ => rfl,
    fun _ => rfl, fun _ => rfl, fun _ => rfl, rfl⟩
  intro item st progress hst hpr
  have hsz : sizeOf_ item = sizeFromProgress progress := by
    simp only [sizeOf_, hst, hpr]
  constructor
  · intro v hv
    show sizeOf_ item = getInt64 v
    rw [hsz]
    simp only [sizeFromProgress, hv]
  · intro hv
    show sizeOf_ item = (mapGet progress "bytesDone").bind getInt64
    rw [hsz]
    simp only [sizeFromProgress, hv]
    cases mapGet progress "bytesDone" <;> rfl

theorem c1_size_preference_amended_witness :
    (extractRow c1CexRecord).sizeBytes = getInt64 (GoVal.vBool true) ∧
    getInt64 (GoVal.vInt64 7) = some 7 :=
  ⟨(c1_size_preference_amended.1 c1CexRecord [("progress", GoVal.vMap c1CexProgress)]
      c1CexProgress rfl rfl).1 (GoVal.vBool true) rfl,
   c1_size_preference_amended.2.1 7⟩

/-- C2 failing input, evaluated: `c2RowA` and `c2RowB` compare equal
under the sort comparator (`rowLess` false both ways) and appear at
input positions 2 and 6, yet `sort.Slice`'s pdqsort (13 elements, just
above its stable insertion-sort cutoff) emits `c2RowB` BEFORE `c2RowA`
(output positions 2 and 3): the sort the code uses is not stable,
while the specified order requires stability. -/
theorem c2_sort_not_stable :
    rowLess c2RowA c2RowB = false ∧ rowLess c2RowB c2RowA = false ∧
    c2Input.indexOf c2RowA = 2 ∧ c2Input.indexOf c2RowB = 6 ∧
    (sortRows c2Input).indexOf c2RowB = 2 ∧ (sortRows c2Input).indexOf c2RowA = 3 := by decide

theorem anyEqual_iff (hay : String) (allowed : List String) :
    anyEqual hay allowed = true ↔ allowed = [] ∨ ∃ a ∈ allowed, hay = a := by
  unfold anyEqual
  cases allowed with
  | nil => simp
  | cons x xs => simp [List.any_eq_true]

theorem anyContainsFold_iff (hay : String) (needles : List String) :
    anyContainsFold hay needles = true ↔
      needles = [] ∨ ∃ n ∈ needles, strContains (goToLower hay) (goToLower n) = true := by
  unfold anyContainsFold
  cases needles with
  | nil => simp
  | cons x xs => simp [List.any_eq_true]

theorem buildRows_filter_map (allFlag : Bool) (pfx : String) (pn ns vol : List String)
    (items : List Record) :
    buildRows allFlag pfx pn ns vol items =
      (items.filter (includeRecord allFlag pfx pn ns vol)).map extractRow := by
  induction items with
  | nil => rfl
  | cons item rest ih =>
    simp only [buildRows, ih, List.filter_cons]
    by_cases h1 : (!allFlag && !goHasPfx pfx (getName item)) = true
    · simp [includeRecord, h1]
    · by_cases h2 : (pn.length > 0 &&
          (podNameOf item == "" || !anyContainsFold (podNameOf item) pn)) = true
      · simp [includeRecord, h1, h2]
      · by_cases h3 : (ns.length > 0 && !anyEqual (podNamespaceOf item) ns) = true
        · simp [includeRecord, h1, h2, h3]
        · by_cases h4 : (vol.length > 0 && !anyEqual (volumeOf item) vol) = true
          · simp [includeRecord, h1, h2, h3, h4]
          · simp [includeRecord, h1, h2, h3, h4]

/-- C3: a record yields a Row exactly when all four conditions hold:
prefix-or-all on the record's own name, some needle occurring
case-insensitively in the pod name when the needle set is non-empty
(an empty pod name then always fails), exact namespace membership, and
exact volume membership; an empty set never excludes, and every filter
flag is comma-split, trimmed, and stripped of empty tokens. -/
theorem c3_inclusion_semantics :
    (∀ (allFlag : Bool) (pfx : String) (pn ns vol : List String) (items : List Record),
      buildRows allFlag pfx pn ns vol items =
        (items.filter (includeRecord allFlag pfx pn ns vol)).map extractRow) ∧
    (∀ (allFlag : Bool) (pfx : String) (pn ns vol : List String) (item : Record),
      includeRecord allFlag pfx pn ns vol item = true ↔
        ((allFlag = true ∨ goHasPfx pfx (getName item) = true) ∧
         (pn = [] ∨ (podNameOf item ≠ "" ∧
            ∃ n ∈ pn, strContains (goToLower (podNameOf item)) (goToLower n) = true)) ∧
         (ns = [] ∨ ∃ a ∈ ns, podNamespaceOf item = a) ∧
         (vol = [] ∨ ∃ a ∈ vol, volumeOf item = a))) ∧
    (∀ s : String,
      splitCSV s = ((splitComma s.data).map goTrimSpace).filter (fun p => p ≠ "")) := by
  refine ⟨buildRows_filter_map, ?_, ?_⟩
  · intro allFlag pfx pn ns vol item
    rw [includeRecord]
    simp only [Bool.and_eq_true, Bool.not_eq_true', Bool.and_eq_false_iff,
      Bool.not_eq_false', Bool.or_eq_false_iff, Bool.not_eq_true,
      decide_eq_false_iff_not, Nat.pos_iff_ne_zero, ne_eq, not_not,
      List.length_eq_zero, beq_eq_false_iff_ne, anyEqual_iff, anyContainsFold_iff]
    tauto
  · intro s
    by_cases h : s = ""
    · subst h
      decide
    · simp [splitCSV, h]

theorem c3_inclusion_semantics_witness :
    (buildRows false "b-" [] [] [] [scenarioRec1, scenarioRec2] =
      ([scenarioRec1, scenarioRec2].filter (includeRecord false "b-" [] [] [])).map extractRow) ∧
    (includeRecord true "" ["ngi"] [] [] scenarioRec1 = true ↔
      ((true = true ∨ goHasPfx "" (getName scenarioRec1) = true) ∧
       (["ngi"] = ([] : List String) ∨ (podNameOf scenarioRec1 ≠ "" ∧
          ∃ n ∈ ["ngi"], strContains (goToLower (podNameOf scenarioRec1)) (goToLower n) = true)) ∧
       (([] : List String) = [] ∨ ∃ a ∈ ([] : List String), podNamespaceOf scenarioRec1 = a) ∧
       (([] : List String) = [] ∨ ∃ a ∈ ([] : List String), volumeOf scenarioRec1 = a))) ∧
    splitCSV " a, ,b ," =
      ((splitComma " a, ,b ,".data).map goTrimSpace).filter (fun p => p ≠ "") :=
  ⟨c3_inclusion_semantics.1 false "b-" [] [] [] [scenarioRec1, scenarioRec2],
   c3_inclusion_semantics.2.1 true "" ["ngi"] [] [] scenarioRec1,
   c3_inclusion_semantics.2.2 " a, ,b ,"⟩

theorem mem_if_nil_singleton (c : Bool) (x y : String) :
    x ∈ (if c then ([] : List String) else [y]) ↔ c = false ∧ x = y := by
  cases c <;> simp

theorem mem_match_sizeKey (x : String) (o : Option Int) :
    x ∈ (match o with | some _ => ["sizeBytes"] | none => ([] : List String)) ↔
      o.isSome = true ∧ x = "sizeBytes" := by
  cases o <;> simp

theorem rowJSONFields_keys (r : Row) :
    (rowJSONFields r).map Prod.fst =
      ["podName", "podNamespace", "volume"] ++
      (match r.sizeBytes with | some _ => ["sizeBytes"] | none => []) ++
      (if r.sizeHuman == "" then [] else ["sizeHuman"]) ++
      (if r.created == "" then [] else ["created"]) ++
      (if r.createdRFC3339 == "" then [] else ["createdRFC3339"]) ++
      (if r.backupName == "" then [] else ["backupName"]) ++
      (if r.resourceName == "" then [] else ["resourceName"]) := by
  cases h1 : r.sizeBytes <;> by_cases h2 : r.sizeHuman == "" <;>
    by_cases h3 : r.created == "" <;> by_cases h4 : r.createdRFC3339 == "" <;>
    by_cases h5 : r.backupName == "" <;> by_cases h6 : r.resourceName == "" <;>
    simp [rowJSONFields, h1, h2, h3, h4, h5, h6]

/-- C8: each Row's JSON object carries keys drawn from the nine struct
field names in struct order (a sublist of `rowJSONKeys`, so the key
order is stable); `podName`, `podNamespace` and `volume` always
appear, and each `omitempty` field appears exactly when its value is
non-absent (pointer non-nil / string non-empty); the array rendering
is the encoder's 2-space-indented form, one object per Row. -/
theorem c8_json_fields :
    (∀ r : Row, ((rowJSONFields r).map Prod.fst).Sublist rowJSONKeys) ∧
    (∀ r : Row, "podName" ∈ (rowJSONFields r).map Prod.fst ∧
      "podNamespace" ∈ (rowJSONFields r).map Prod.fst ∧
      "volume" ∈ (rowJSONFields r).map Prod.fst) ∧
    (∀ r : Row, "sizeBytes" ∈ (rowJSONFields r).map Prod.fst ↔ r.sizeBytes ≠ none) ∧
    (∀ r : Row, "sizeHuman" ∈ (rowJSONFields r).map Prod.fst ↔ r.sizeHuman ≠ "") ∧
    (∀ r : Row, "created" ∈ (rowJSONFields r).map Prod.fst ↔ r.created ≠ "") ∧
    (∀ r : Row, "createdRFC3339" ∈ (rowJSONFields r).map Prod.fst ↔ r.createdRFC3339 ≠ "") ∧
    (∀ r : Row, "backupName" ∈ (rowJSONFields r).map Prod.fst ↔ r.backupName ≠ "") ∧
    (∀ r : Row, "resourceName" ∈ (rowJSONFields r).map Prod.fst ↔ r.resourceName ≠ "") ∧
    (∀ rows : List Row, rows ≠ [] →
      renderJSON rows =
        "[\n" ++ joinSep ",\n" (rows.map (fun r => "  " ++ rowJSONObject r)) ++ "\n]\n") ∧
    renderJSON [] = "[]\n" := by
  refine ⟨?_, ?_, ?_, ?_, ?_, ?_, ?_, ?_, ?_, rfl⟩
  · intro r
    rw [rowJSONFields_keys r]
    cases h1 : r.sizeBytes <;> by_cases h2 : r.sizeHuman == "" <;>
      by_cases h3 : r.created == "" <;> by_cases h4 : r.createdRFC3339 == "" <;>
      by_cases h5 : r.backupName == "" <;> by_cases h6 : r.resourceName == "" <;>
      simp [h1, h2, h3, h4, h5, h6, rowJSONKeys] <;> decide
  · intro r
    rw [rowJSONFields_keys r]
    simp [List.mem_append]
  · intro r
    rw [rowJSONFields_keys r]
    simp [List.mem_append, mem_if_nil_singleton, mem_match_sizeKey, Option.isSome_iff_exists]
    cases r.sizeBytes <;> simp
  · intro r
    rw [rowJSONFields_keys r]
    simp [List.mem_append, mem_if_nil_singleton, mem_match_sizeKey, beq_eq_false_iff_ne]
  · intro r
    rw [rowJSONFields_keys r]
    simp [List.mem_append, mem_if_nil_singleton, mem_match_sizeKey, beq_eq_false_iff_ne]
  · intro r
    rw [rowJSONFields_keys r]
    simp [List.mem_append, mem_if_nil_singleton, mem_match_sizeKey, beq_eq_false_iff_ne]
  · intro r
    rw [rowJSONFields_keys r]
    simp [List.mem_append, mem_if_nil_singleton, mem_match_sizeKey, beq_eq_false_iff_ne]
  · intro r
    rw [rowJSONFields_keys r]
    simp [List.mem_append, mem_if_nil_singleton, mem_match_sizeKey, beq_eq_false_iff_ne]
  · intro rows h
    cases rows with
    | nil => exact absurd rfl h
    | cons r rest => rfl

theorem c8_json_fields_witness :
    ("sizeBytes" ∈ (rowJSONFields (extractRow scenarioRec1)).map Prod.fst ↔
      (extractRow scenarioRec1).sizeBytes ≠ none) ∧
    renderJSON [extractRow scenarioRec1] =
      "[\n" ++ joinSep ",\n" ([extractRow scenarioRec1].map (fun r => "  " ++ rowJSONObject r)) ++
        "\n]\n" :=
  ⟨c8_json_fields.2.2.1 (extractRow scenarioRec1),
   c8_json_fields.2.2.2.2.2.2.2.2.1 [extractRow scenarioRec1] (by decide)⟩
